import Mathlib

/-!
Verification development for the humaned-exo repository.

Shallow embedding of `src/main1.py`: the `Arm` two-link dynamics model
(constructor, `set_end_mass`, `calculate_inverse_dynamics`) and the moteus
actuator control loop in `main`.  Python floats are idealised as exact
rationals; torque values, which pass through trigonometric functions, live
in `ℝ`.  The multibody-library calls (`SetBodySpatialInertiaInBodyFrame`,
`SetPositions`, `SetVelocities`, `CalcInverseDynamics`) are external to the
repository; their effect is modelled as explicit state on the `Arm` record,
with the inverse-dynamics solve modelled, per the spec, as standard planar
two-revolute-joint rigid-body dynamics under the plant's gravity vector
of magnitude 9.81 along negative y.
-/

namespace HumanedExo

/-- Error outcomes of the model operations.  `zeroDivision` models Python's
`ZeroDivisionError` on float division by zero (raised by `set_end_mass`
when `m2 + end_mass` is zero).  `invalidState` models the spec's
`InvalidStateError` taxonomy: in the source these surface as the
dimension-check failures of the multibody library when
`SetPositions` / `SetVelocities` / `CalcInverseDynamics` receive vectors
whose length differs from the joint count 2. -/
inductive ModelError where
  | zeroDivision : ModelError
  | invalidState : ModelError
deriving DecidableEq, Repr

/-- Spatial inertia triple as constructed in the source
(`drake.SpatialInertia(mass=..., p_PScm_E=[c,0,0], G_SP_E=RotationalInertia(I,I,I))`):
a mass, a centre-of-mass offset along the link's x axis, and the isotropic
rotational-inertia scalar. -/
structure SpatialInertia where
  mass : ℚ
  comX : ℚ
  moment : ℚ
deriving DecidableEq, Repr

/-- The `Arm` model state from `main1.py`.  `m1 l1 m2 l2` are the link
parameters stored in `__init__`; `end_mass_param` is the plant parameter set
by `set_end_mass`; `link2Inertia` is link 2's spatial inertia installed by
`SetBodySpatialInertiaInBodyFrame`; `ctxQ` / `ctxV` are the positions and
velocities held in the plant context (written by `SetPositions` /
`SetVelocities`). -/
structure Arm where
  m1 : ℚ
  m2 : ℚ
  l1 : ℚ
  l2 : ℚ
  end_mass_param : ℚ
  link2Inertia : SpatialInertia
  ctxQ : List ℚ
  ctxV : List ℚ
deriving DecidableEq, Repr

/-- `Arm.set_end_mass` (main1.py lines 69-84): recompute link 2's composite
spatial inertia from the stored `m2`, `l2` and the new end mass, store the
end-mass parameter, and install the new inertia.  The division by
`total_mass2` raises Python's `ZeroDivisionError` when `m2 + end_mass = 0`;
no other validation is performed by the source. -/
def set_end_mass (a : Arm) (end_mass : ℚ) : Except ModelError Arm :=
  let total_mass2 := a.m2 + end_mass
  if total_mass2 = 0 then .error .zeroDivision
  else
    let com2 := (a.m2 * a.l2 / 2 + end_mass * a.l2) / total_mass2
    let I2 := a.m2 * (a.l2 / 2) ^ 2 + end_mass * a.l2 ^ 2
    .ok { a with
      end_mass_param := end_mass
      link2Inertia := ⟨total_mass2, com2, I2⟩ }

/-- `Arm.__init__` (main1.py lines 16-67): stores the constructor arguments
(in the source's parameter order m1, m2, l1, l2), creates link 2 with a
placeholder inertia and a default context (all joint positions and
velocities zero), and finishes by calling `set_end_mass` on the initial end
mass. -/
def mkArm (m1 m2 l1 l2 initial_end_mass : ℚ) : Except ModelError Arm :=
  set_end_mass
    { m1 := m1, m2 := m2, l1 := l1, l2 := l2
      end_mass_param := 0
      link2Inertia := ⟨0, 0, 0⟩
      ctxQ := [0, 0], ctxV := [0, 0] } initial_end_mass

/-- The concrete arm built by the repository's GUI entry point
(`ControlGUI.py`: m1 = l1 = m2 = l2 = 0.5, initial end mass 0.5), after the
constructor's initial `set_end_mass` has run. -/
def sampleArm : Arm :=
  { m1 := 1/2, m2 := 1/2, l1 := 1/2, l2 := 1/2
    end_mass_param := 1/2
    link2Inertia := ⟨1, 3/8, 5/32⟩
    ctxQ := [0, 0], ctxV := [0, 0] }

instance {ε α : Type} [DecidableEq ε] [DecidableEq α] : DecidableEq (Except ε α) :=
  fun x y =>
  match x, y with
  | .ok a, .ok b => if h : a = b then .isTrue (by rw [h]) else .isFalse (by simp [h])
  | .error e, .error f => if h : e = f then .isTrue (by rw [h]) else .isFalse (by simp [h])
  | .ok _, .error _ => .isFalse (by simp)
  | .error _, .ok _ => .isFalse (by simp)

lemma mkArm_sample : mkArm (1/2) (1/2) (1/2) (1/2) (1/2) = .ok sampleArm := by
  norm_num [mkArm, set_end_mass, sampleArm]

/-- Gravity magnitude: the plant's gravity vector is `[0, -9.81, 0]`
(main1.py line 57). -/
noncomputable def g0 : ℝ := 981 / 100

/-- Shoulder-joint generalized force of the planar two-link arm: standard
rigid-body dynamics (mass matrix, velocity-product and gravity terms) for
link 1 of mass `m1`, length `l1`, centroid at `l1/2`, central inertia
`m1*l1^2/12` (as installed in `__init__`) and the composite link 2 described
by `link2Inertia`, with gravity `g0` along negative y and joint angles
measured from the positive x axis (the arm's horizontal configuration is
`q1 = q2 = 0`). -/
noncomputable def tau_shoulder (a : Arm) (q1 q2 v1 v2 vd1 vd2 : ℚ) : ℝ :=
  let m1 : ℝ := (a.m1 : ℝ)
  let l1 : ℝ := (a.l1 : ℝ)
  let mt : ℝ := (a.link2Inertia.mass : ℝ)
  let r2 : ℝ := (a.link2Inertia.comX : ℝ)
  let i2 : ℝ := (a.link2Inertia.moment : ℝ)
  let i1 : ℝ := m1 * l1 ^ 2 / 12
  let r1 : ℝ := l1 / 2
  let c1 : ℝ := Real.cos (q1 : ℝ)
  let c2 : ℝ := Real.cos (q2 : ℝ)
  let s2 : ℝ := Real.sin (q2 : ℝ)
  let c12 : ℝ := Real.cos ((q1 : ℝ) + (q2 : ℝ))
  (i1 + i2 + m1 * r1 ^ 2 + mt * (l1 ^ 2 + r2 ^ 2 + 2 * l1 * r2 * c2)) * (vd1 : ℝ)
    + (i2 + mt * (r2 ^ 2 + l1 * r2 * c2)) * (vd2 : ℝ)
    - mt * l1 * r2 * s2 * (2 * (v1 : ℝ) * (v2 : ℝ) + (v2 : ℝ) ^ 2)
    + g0 * ((m1 * r1 + mt * l1) * c1 + mt * r2 * c12)

/-- Elbow-joint generalized force of the planar two-link arm (same model as
`tau_shoulder`). -/
noncomputable def tau_elbow (a : Arm) (q1 q2 v1 v2 vd1 vd2 : ℚ) : ℝ :=
  let l1 : ℝ := (a.l1 : ℝ)
  let mt : ℝ := (a.link2Inertia.mass : ℝ)
  let r2 : ℝ := (a.link2Inertia.comX : ℝ)
  let i2 : ℝ := (a.link2Inertia.moment : ℝ)
  let c2 : ℝ := Real.cos (q2 : ℝ)
  let s2 : ℝ := Real.sin (q2 : ℝ)
  let c12 : ℝ := Real.cos ((q1 : ℝ) + (q2 : ℝ))
  (i2 + mt * (r2 ^ 2 + l1 * r2 * c2)) * (vd1 : ℝ)
    + (i2 + mt * r2 ^ 2) * (vd2 : ℝ)
    + mt * l1 * r2 * s2 * (v1 : ℝ) ^ 2
    + g0 * (mt * r2 * c12)

/-- `Arm.calculate_inverse_dynamics` (main1.py lines 86-95): writes `q` and
`v` into the plant context (`SetPositions` / `SetVelocities`) and solves
inverse dynamics for the acceleration `vd` under gravity and the current
inertia.  The library's dimension checks reject any of `q`, `v`, `vd` whose
length differs from the joint count 2; this is the spec's
`InvalidStateError`.  Returns the torque list together with the
post-call model state. -/
noncomputable def calculate_inverse_dynamics (a : Arm) (q v vd : List ℚ) :
    Except ModelError (List ℝ × Arm) :=
  if q.length = 2 ∧ v.length = 2 ∧ vd.length = 2 then
    let a' := { a with ctxQ := q, ctxV := v }
    .ok ([tau_shoulder a' (q.getD 0 0) (q.getD 1 0) (v.getD 0 0) (v.getD 1 0)
            (vd.getD 0 0) (vd.getD 1 0),
          tau_elbow a' (q.getD 0 0) (q.getD 1 0) (v.getD 0 0) (v.getD 1 0)
            (vd.getD 0 0) (vd.getD 1 0)], a')
  else .error .invalidState

/-- Shoulder component (first entry) of an inverse-dynamics result; zero on
error. -/
noncomputable def shoulderTorque (r : Except ModelError (List ℝ × Arm)) : ℝ :=
  match r with
  | .ok (ts, _) => ts.getD 0 0
  | .error _ => 0

/-- A command frame handed to the pi3hat transport by one `cycle` call in
`main` (main1.py): either a `make_stop` frame or a `make_position` frame.
`holdPosition` models `position=math.nan` ("hold current position");
`feedforwardTorque` is optional because only servo 1's command passes it. -/
inductive Command where
  | stop (servoId : ℕ)
  | positionCmd (servoId : ℕ) (feedforwardTorque : Option ℝ) (holdPosition : Bool)
      (velocity : ℝ) (query : Bool)

/-- Boolean test for a position command frame. -/
def Command.isPositionCmd : Command → Bool
  | .stop _ => false
  | .positionCmd _ _ _ _ _ => true

/-- The servo ids configured in `main` (main1.py: `servos` is built for ids
1 and 2). -/
def servoIds : List ℕ := [1, 2]

/-- The initial all-actuators stop batch
(`[x.make_stop() for x in servos.values()]`, main1.py line 123). -/
def stopBatch : List Command := servoIds.map Command.stop

/-- The Running-iteration command batch (main1.py lines 139-149): servo 1
gets `feedforward_torque=0, position=nan, velocity=0.1*sin(now), query=True`;
servo 2 gets `position=nan, velocity=0.1*sin(now+1), query=True`.  The batch
is a function of the wall-clock time `now` only — the loop never feeds
transport results back into command generation. -/
noncomputable def runningCommands (now : ℝ) : List Command :=
  [.positionCmd 1 (some 0) true (1 / 10 * Real.sin now) true,
   .positionCmd 2 none true (1 / 10 * Real.sin (now + 1)) true]

/-- The sequence of transport cycles issued by `main` (main1.py lines
119-180): the batch of cycle 0 is the stop batch; every later cycle `n + 1`
is the Running position batch generated from the wall clock at iteration
`n`.  `clock` is the wall-clock oracle (`time.time()` at each iteration)
and `resp` the transport-response oracle; `resp` is a parameter of an
arbitrary type because the source never lets responses influence which
commands are issued. -/
noncomputable def mainTrace {R : Type} (clock : ℕ → ℝ) (resp : ℕ → R) :
    ℕ → List Command
  | 0 => stopBatch
  | n + 1 => runningCommands (clock n)

/-- The fixed inter-cycle sleep of the Running loop, in seconds
(`await asyncio.sleep(0.02)`, main1.py line 180). -/
def cyclePeriod : ℚ := 1 / 50

/-- Wall-clock accounting of one Running iteration: the submission instant,
the transport round-trip latency of `transport.cycle`, and the time spent
processing and printing the results. -/
structure IterationTiming where
  submitTime : ℚ
  latency : ℚ
  processing : ℚ
deriving DecidableEq, Repr

/-- Sleep executed at the end of a Running iteration.  The source's final
loop statement is `await asyncio.sleep(0.02)`: a constant-duration sleep
that does not consult how much of the cycle has already elapsed. -/
def sleepDuration (_it : IterationTiming) : ℚ := cyclePeriod

/-- Submission instant of the next iteration: the previous submission plus
transport latency, result processing, and the end-of-iteration sleep. -/
def nextSubmitTime (it : IterationTiming) : ℚ :=
  it.submitTime + it.latency + it.processing + sleepDuration it

/-- Helper: the successful branch of `set_end_mass`, made explicit. -/
lemma set_end_mass_ok (a : Arm) (m : ℚ) (h : a.m2 + m ≠ 0) :
    set_end_mass a m = .ok
      { a with
        end_mass_param := m
        link2Inertia :=
          ⟨a.m2 + m,
           (a.m2 * a.l2 / 2 + m * a.l2) / (a.m2 + m),
           a.m2 * (a.l2 / 2) ^ 2 + m * a.l2 ^ 2⟩ } := by
  simp [set_end_mass, h]

/-- Helper: inversion of a successful `set_end_mass` call. -/
lemma set_end_mass_eq_ok {a : Arm} {m : ℚ} {b : Arm}
    (h : set_end_mass a m = .ok b) :
    a.m2 + m ≠ 0 ∧
    b = { a with
          end_mass_param := m
          link2Inertia :=
            ⟨a.m2 + m,
             (a.m2 * a.l2 / 2 + m * a.l2) / (a.m2 + m),
             a.m2 * (a.l2 / 2) ^ 2 + m * a.l2 ^ 2⟩ } := by
  by_cases hc : a.m2 + m = 0
  · simp [set_end_mass, hc] at h
  · refine ⟨hc, ?_⟩
    rw [set_end_mass_ok a m hc] at h
    exact (Except.ok.inj h).symm

/-- C1: for every `set_end_mass(newMass)` call with link-2 mass `m2 > 0`,
link-2 length `l2 > 0` and `newMass ≥ 0`, the model recomputes link 2's
composite inertia exactly as total mass `m2 + newMass`, centre-of-mass
offset `(m2*l2/2 + newMass*l2) / (m2 + newMass)` and rotational-inertia
scalar `m2*(l2/2)^2 + newMass*l2^2`, and installs the triple as link 2's
spatial inertia in the model state read by subsequent queries. -/
theorem set_end_mass_formula (a : Arm) (newMass : ℚ)
    (hm2 : 0 < a.m2) (hl2 : 0 < a.l2) (hm : 0 ≤ newMass) :
    set_end_mass a newMass = .ok
      { a with
        end_mass_param := newMass
        link2Inertia :=
          ⟨a.m2 + newMass,
           (a.m2 * a.l2 / 2 + newMass * a.l2) / (a.m2 + newMass),
           a.m2 * (a.l2 / 2) ^ 2 + newMass * a.l2 ^ 2⟩ } :=
  set_end_mass_ok a newMass (ne_of_gt (by linarith))

theorem set_end_mass_formula_witness :
    0 < sampleArm.m2 ∧ 0 < sampleArm.l2 ∧ (0 : ℚ) ≤ 2 ∧
    set_end_mass sampleArm 2 = .ok
      { sampleArm with
        end_mass_param := 2
        link2Inertia :=
          ⟨sampleArm.m2 + 2,
           (sampleArm.m2 * sampleArm.l2 / 2 + 2 * sampleArm.l2) /
             (sampleArm.m2 + 2),
           sampleArm.m2 * (sampleArm.l2 / 2) ^ 2 + 2 * sampleArm.l2 ^ 2⟩ } :=
  ⟨by norm_num [sampleArm], by norm_num [sampleArm], by norm_num,
   set_end_mass_formula sampleArm 2 (by norm_num [sampleArm])
     (by norm_num [sampleArm]) (by norm_num)⟩

/-- C4: `set_end_mass` is idempotent — calling it twice in succession with
the same mass leaves the model in the same state as calling it once, so
every subsequent `calculate_inverse_dynamics` call on the same `q`, `v`,
`vd` returns identical torques in both cases.  (Proved unconditionally, so
in particular for every mass `m ≥ 0`.) -/
theorem set_end_mass_idem (a : Arm) (m : ℚ) :
    (set_end_mass a m).bind (fun b => set_end_mass b m) = set_end_mass a m ∧
    ∀ q v vd,
      ((set_end_mass a m).bind (fun b => set_end_mass b m)).bind
          (fun b => calculate_inverse_dynamics b q v vd) =
        (set_end_mass a m).bind
          (fun b => calculate_inverse_dynamics b q v vd) := by
  have h1 : (set_end_mass a m).bind (fun b => set_end_mass b m) =
      set_end_mass a m := by
    by_cases hc : a.m2 + m = 0
    · simp [set_end_mass, hc, Except.bind]
    · rw [set_end_mass_ok a m hc]
      show set_end_mass _ m = _
      exact set_end_mass_ok _ m hc
  exact ⟨h1, fun q v vd => by rw [h1]⟩

/-- C5 counterexample: on the repository's own arm (m2 = 0.5, l2 = 0.5),
`set_end_mass(-0.25)` does not fail with `InvalidStateError`; it silently
installs a composite inertia with total mass 0.25, centre of mass 0 and the
negative rotational-inertia scalar -1/32. -/
theorem set_end_mass_negative_cex :
    set_end_mass sampleArm (-(1/4)) =
      .ok { sampleArm with
            end_mass_param := -(1/4)
            link2Inertia := ⟨1/4, 0, -(1/32)⟩ } ∧
    set_end_mass sampleArm (-(1/4)) ≠ .error .invalidState := by
  have h : set_end_mass sampleArm (-(1/4)) =
      .ok { sampleArm with
            end_mass_param := -(1/4)
            link2Inertia := ⟨1/4, 0, -(1/32)⟩ } := by
    norm_num [set_end_mass, sampleArm]
  exact ⟨h, by rw [h]; exact fun hx => Except.noConfusion hx⟩

/-- C5 amended: `set_end_mass` performs no input validation — a negative
`newMass` with `m2 + newMass ≠ 0` silently updates the model with the same
formulas as a non-negative one, and no `InvalidStateError` is surfaced. -/
theorem set_end_mass_negative_silent (a : Arm) (m : ℚ)
    (hneg : m < 0) (hden : a.m2 + m ≠ 0) :
    set_end_mass a m = .ok
      { a with
        end_mass_param := m
        link2Inertia :=
          ⟨a.m2 + m, (a.m2 * a.l2 / 2 + m * a.l2) / (a.m2 + m),
           a.m2 * (a.l2 / 2) ^ 2 + m * a.l2 ^ 2⟩ } ∧
    set_end_mass a m ≠ .error .invalidState :=
  ⟨set_end_mass_ok a m hden, by rw [set_end_mass_ok a m hden]; simp⟩

theorem set_end_mass_negative_silent_witness :
    (-(1/8) : ℚ) < 0 ∧ sampleArm.m2 + -(1/8) ≠ 0 ∧
    (set_end_mass sampleArm (-(1/8)) = .ok
      { sampleArm with
        end_mass_param := -(1/8)
        link2Inertia :=
          ⟨sampleArm.m2 + -(1/8),
           (sampleArm.m2 * sampleArm.l2 / 2 + -(1/8) * sampleArm.l2) /
             (sampleArm.m2 + -(1/8)),
           sampleArm.m2 * (sampleArm.l2 / 2) ^ 2 + -(1/8) * sampleArm.l2 ^ 2⟩ } ∧
     set_end_mass sampleArm (-(1/8)) ≠ .error .invalidState) :=
  ⟨by norm_num, by norm_num [sampleArm],
   set_end_mass_negative_silent sampleArm (-(1/8)) (by norm_num)
     (by norm_num [sampleArm])⟩

/-- C9: `set_end_mass` divides by the combined mass `m2 + end_mass`; under
the precondition `m2 > 0` and `end_mass ≥ 0` the denominator is strictly
positive and the call succeeds, while the out-of-precondition input
`end_mass = -m2` raises a division-by-zero error at the public
interface. -/
theorem set_end_mass_denominator (a : Arm) (m : ℚ)
    (hm2 : 0 < a.m2) (hm : 0 ≤ m) :
    (0 < a.m2 + m ∧ (set_end_mass a m).isOk = true) ∧
    set_end_mass a (-a.m2) = .error .zeroDivision := by
  have hpos : 0 < a.m2 + m := by linarith
  refine ⟨⟨hpos, ?_⟩, ?_⟩
  · rw [set_end_mass_ok a m (ne_of_gt hpos)]; rfl
  · simp [set_end_mass]

theorem set_end_mass_denominator_witness :
    0 < sampleArm.m2 ∧ (0 : ℚ) ≤ 1 ∧
    ((0 < sampleArm.m2 + 1 ∧ (set_end_mass sampleArm 1).isOk = true) ∧
      set_end_mass sampleArm (-sampleArm.m2) = .error .zeroDivision) :=
  ⟨by norm_num [sampleArm], by norm_num,
   set_end_mass_denominator sampleArm 1 (by norm_num [sampleArm])
     (by norm_num)⟩

/-- C3: `calculate_inverse_dynamics` fails with `InvalidStateError` exactly
when one of `q`, `v`, `vd` has length different from the joint count 2, and
for inputs of the correct length 2 it succeeds (does not raise this
error). -/
theorem invdyn_length_check (a : Arm) (q v vd : List ℚ) :
    (calculate_inverse_dynamics a q v vd = .error .invalidState ↔
      ¬ (q.length = 2 ∧ v.length = 2 ∧ vd.length = 2)) ∧
    (q.length = 2 → v.length = 2 → vd.length = 2 →
      (calculate_inverse_dynamics a q v vd).isOk = true) := by
  by_cases h : q.length = 2 ∧ v.length = 2 ∧ vd.length = 2
  · refine ⟨?_, fun _ _ _ => ?_⟩
    · simp [calculate_inverse_dynamics, h]
    · simp only [calculate_inverse_dynamics, if_pos h]
      rfl
  · refine ⟨?_, fun h1 h2 h3 => absurd ⟨h1, h2, h3⟩ h⟩
    simp [calculate_inverse_dynamics, h]

theorem invdyn_length_check_witness :
    ([0, 0] : List ℚ).length = 2 ∧
    (calculate_inverse_dynamics sampleArm [0, 0] [0, 0] [0, 0]).isOk = true :=
  ⟨rfl, (invdyn_length_check sampleArm [0, 0] [0, 0] [0, 0]).2 rfl rfl rfl⟩

/-- C8: `calculate_inverse_dynamics` is a pure function of its inputs and
the current model state.  Its result is unaffected by whatever positions and
velocities a previous computation left in the context, and a successful call
changes nothing in the model beyond the transient position/velocity
assignment: the end-mass parameter, the link inertias and the link
parameters are untouched.  (Determinism — two calls with the same inputs
and state return equal torques — is immediate because the embedding is a
function.) -/
theorem invdyn_pure (a : Arm) (q0 v0 q v vd : List ℚ) :
    calculate_inverse_dynamics { a with ctxQ := q0, ctxV := v0 } q v vd =
      calculate_inverse_dynamics a q v vd ∧
    ∀ ts a', calculate_inverse_dynamics a q v vd = .ok (ts, a') →
      a' = { a with ctxQ := q, ctxV := v } ∧
      a'.end_mass_param = a.end_mass_param ∧
      a'.link2Inertia = a.link2Inertia ∧
      a'.m1 = a.m1 ∧ a'.m2 = a.m2 ∧ a'.l1 = a.l1 ∧ a'.l2 = a.l2 := by
  constructor
  · by_cases h : q.length = 2 ∧ v.length = 2 ∧ vd.length = 2 <;>
      simp [calculate_inverse_dynamics, h]
  · intro ts a' hok
    by_cases h : q.length = 2 ∧ v.length = 2 ∧ vd.length = 2
    · simp only [calculate_inverse_dynamics, if_pos h, Except.ok.injEq,
        Prod.mk.injEq] at hok
      obtain ⟨-, h2⟩ := hok
      subst h2
      exact ⟨rfl, rfl, rfl, rfl, rfl, rfl, rfl⟩
    · simp [calculate_inverse_dynamics, h] at hok

theorem invdyn_pure_witness :
    calculate_inverse_dynamics { sampleArm with ctxQ := [9, 9], ctxV := [8, 8] }
        [1, 2] [3, 4] [5, 6] =
      calculate_inverse_dynamics sampleArm [1, 2] [3, 4] [5, 6] ∧
    ({ sampleArm with ctxQ := [1, 2], ctxV := [3, 4] } : Arm) =
        { sampleArm with ctxQ := [1, 2], ctxV := [3, 4] } ∧
    ({ sampleArm with ctxQ := [1, 2], ctxV := [3, 4] } : Arm).end_mass_param =
        sampleArm.end_mass_param ∧
    ({ sampleArm with ctxQ := [1, 2], ctxV := [3, 4] } : Arm).link2Inertia =
        sampleArm.link2Inertia ∧
    ({ sampleArm with ctxQ := [1, 2], ctxV := [3, 4] } : Arm).m1 = sampleArm.m1 ∧
    ({ sampleArm with ctxQ := [1, 2], ctxV := [3, 4] } : Arm).m2 = sampleArm.m2 ∧
    ({ sampleArm with ctxQ := [1, 2], ctxV := [3, 4] } : Arm).l1 = sampleArm.l1 ∧
    ({ sampleArm with ctxQ := [1, 2], ctxV := [3, 4] } : Arm).l2 = sampleArm.l2 :=
  ⟨(invdyn_pure sampleArm [9, 9] [8, 8] [1, 2] [3, 4] [5, 6]).1,
   (invdyn_pure sampleArm [9, 9] [8, 8] [1, 2] [3, 4] [5, 6]).2
     [tau_shoulder { sampleArm with ctxQ := [1, 2], ctxV := [3, 4] } 1 2 3 4 5 6,
      tau_elbow { sampleArm with ctxQ := [1, 2], ctxV := [3, 4] } 1 2 3 4 5 6]
     { sampleArm with ctxQ := [1, 2], ctxV := [3, 4] }
     (by norm_num [calculate_inverse_dynamics])⟩

/-- C6: in every execution of the control loop, the first transport cycle
issued (index 0 of the trace) is the all-actuators stop batch, position
commands appear only in strictly later cycles (so the stop cycle completes
before any position command is submitted), and the loop enters the Running
iterations unconditionally: the issued trace is identical under every
transport-response oracle, so absent stop responses are not an error. -/
theorem main_loop_init_stop {R : Type} (clock : ℕ → ℝ) (resp : ℕ → R) :
    mainTrace clock resp 0 = servoIds.map Command.stop ∧
    (∀ n, ((mainTrace clock resp (n + 1)).all Command.isPositionCmd) = true) ∧
    ∀ resp' : ℕ → R, mainTrace clock resp = mainTrace clock resp' := by
  refine ⟨rfl, fun n => rfl, fun resp' => funext fun n => ?_⟩
  cases n <;> rfl

/-- C7 counterexample: in an iteration that has already spent
15 ms (10 ms transport latency plus 5 ms result processing), the sleep
executed by the source is not the remainder of the 20 ms cycle period
(which would be 5 ms). -/
theorem sleep_not_remainder_cex :
    sleepDuration ⟨0, 1/100, 1/200⟩ ≠ cyclePeriod - (1/100 + 1/200) := by
  norm_num [sleepDuration, cyclePeriod]

/-- C7 amended: every Running iteration ends by sleeping a fixed 20 ms
after command submission and result processing, regardless of the time the
iteration has already spent; the next submission therefore happens a full
20 ms plus the iteration's transport latency and processing time after the
previous one, not on a fixed 20 ms grid. -/
theorem sleep_fixed_cycle (it : IterationTiming) :
    sleepDuration it = cyclePeriod ∧
    nextSubmitTime it =
      it.submitTime + (it.latency + it.processing) + cyclePeriod := by
  refine ⟨rfl, ?_⟩
  simp only [nextSubmitTime, sleepDuration]
  ring

/-- Helper: the centre-of-mass offset installed by a successful
`set_end_mass` call. -/
lemma comX_of_ok {a : Arm} {m : ℚ} {b : Arm} (h : set_end_mass a m = .ok b) :
    b.link2Inertia.comX = (a.m2 * a.l2 / 2 + m * a.l2) / (a.m2 + m) := by
  obtain ⟨-, rfl⟩ := set_end_mass_eq_ok h
  rfl

/-- Helper: `calculate_inverse_dynamics` evaluated at the horizontal
configuration with zero velocities and accelerations. -/
lemma calcID_zero (a : Arm) :
    calculate_inverse_dynamics a [0, 0] [0, 0] [0, 0] =
      .ok ([tau_shoulder { a with ctxQ := [0, 0], ctxV := [0, 0] } 0 0 0 0 0 0,
            tau_elbow { a with ctxQ := [0, 0], ctxV := [0, 0] } 0 0 0 0 0 0],
           { a with ctxQ := [0, 0], ctxV := [0, 0] }) := by
  norm_num [calculate_inverse_dynamics]

/-- Helper: the shoulder generalized force at the horizontal configuration
with zero velocity and acceleration is the pure gravity term. -/
lemma tau_shoulder_zero (a : Arm) :
    tau_shoulder a 0 0 0 0 0 0 =
      g0 * ((a.m1 : ℝ) * ((a.l1 : ℝ) / 2) + (a.link2Inertia.mass : ℝ) * (a.l1 : ℝ)
        + (a.link2Inertia.mass : ℝ) * (a.link2Inertia.comX : ℝ)) := by
  simp only [tau_shoulder]
  push_cast
  simp only [Real.cos_zero, Real.sin_zero, add_zero]
  ring

/-- Helper: the static shoulder torque after `set_end_mass`, with the
composite-mass-times-offset product cancelled against the denominator. -/
lemma shoulderTorque_after_set_end_mass (a : Arm) (m : ℚ)
    (hne : a.m2 + m ≠ 0) (b : Arm) (hb : set_end_mass a m = .ok b) :
    shoulderTorque (calculate_inverse_dynamics b [0, 0] [0, 0] [0, 0]) =
      g0 * ((a.m1 : ℝ) * ((a.l1 : ℝ) / 2) + ((a.m2 : ℝ) + (m : ℝ)) * (a.l1 : ℝ)
        + ((a.m2 : ℝ) * (a.l2 : ℝ) / 2 + (m : ℝ) * (a.l2 : ℝ))) := by
  obtain ⟨-, rfl⟩ := set_end_mass_eq_ok hb
  rw [calcID_zero]
  simp only [shoulderTorque, List.getD_cons_zero]
  rw [tau_shoulder_zero]
  dsimp only
  have hR : (a.m2 : ℝ) + (m : ℝ) ≠ 0 := by exact_mod_cast hne
  push_cast
  field_simp
  ring

/-- C2: for fixed link masses and lengths, calling `set_end_mass` and then
`calculate_inverse_dynamics` with zero velocities and accelerations at the
arm's horizontal configuration `q = [0, 0]` yields a strictly larger
shoulder-torque magnitude for the larger of two end masses `m' > m ≥ 0`
(the shoulder gravity torque grows monotonically with the end mass).  The
multibody library's inverse-dynamics solve is modelled, per the spec, as
standard planar two-link rigid-body dynamics under the plant's gravity. -/
theorem shoulder_torque_mono (a : Arm) (m m' : ℚ)
    (hm1 : 0 < a.m1) (hl1 : 0 < a.l1) (hm2 : 0 < a.m2) (hl2 : 0 < a.l2)
    (hm : 0 ≤ m) (hmm : m < m') (b b' : Arm)
    (hb : set_end_mass a m = .ok b) (hb' : set_end_mass a m' = .ok b') :
    0 < shoulderTorque (calculate_inverse_dynamics b [0, 0] [0, 0] [0, 0]) ∧
    |shoulderTorque (calculate_inverse_dynamics b [0, 0] [0, 0] [0, 0])| <
      |shoulderTorque (calculate_inverse_dynamics b' [0, 0] [0, 0] [0, 0])| := by
  have hq1 : a.m2 + m ≠ 0 := ne_of_gt (by linarith)
  have hq2 : a.m2 + m' ≠ 0 := ne_of_gt (by linarith)
  rw [shoulderTorque_after_set_end_mass a m hq1 b hb,
      shoulderTorque_after_set_end_mass a m' hq2 b' hb']
  have hm1R : (0 : ℝ) < (a.m1 : ℝ) := by exact_mod_cast hm1
  have hl1R : (0 : ℝ) < (a.l1 : ℝ) := by exact_mod_cast hl1
  have hm2R : (0 : ℝ) < (a.m2 : ℝ) := by exact_mod_cast hm2
  have hl2R : (0 : ℝ) < (a.l2 : ℝ) := by exact_mod_cast hl2
  have hmR : (0 : ℝ) ≤ (m : ℝ) := by exact_mod_cast hm
  have hmmR : (m : ℝ) < (m' : ℝ) := by exact_mod_cast hmm
  have hg : (0 : ℝ) < g0 := by norm_num [g0]
  have hpos : (0 : ℝ) <
      (a.m1 : ℝ) * ((a.l1 : ℝ) / 2) + ((a.m2 : ℝ) + (m : ℝ)) * (a.l1 : ℝ)
        + ((a.m2 : ℝ) * (a.l2 : ℝ) / 2 + (m : ℝ) * (a.l2 : ℝ)) := by
    nlinarith [mul_pos hm1R hl1R, mul_pos hm2R hl1R, mul_pos hm2R hl2R,
      mul_nonneg hmR hl1R.le, mul_nonneg hmR hl2R.le]
  have hpos' : (0 : ℝ) <
      (a.m1 : ℝ) * ((a.l1 : ℝ) / 2) + ((a.m2 : ℝ) + (m' : ℝ)) * (a.l1 : ℝ)
        + ((a.m2 : ℝ) * (a.l2 : ℝ) / 2 + (m' : ℝ) * (a.l2 : ℝ)) := by
    nlinarith [mul_pos hm1R hl1R, mul_pos hm2R hl1R, mul_pos hm2R hl2R,
      mul_nonneg (le_trans hmR hmmR.le) hl1R.le,
      mul_nonneg (le_trans hmR hmmR.le) hl2R.le]
  have hlt :
      g0 * ((a.m1 : ℝ) * ((a.l1 : ℝ) / 2) + ((a.m2 : ℝ) + (m : ℝ)) * (a.l1 : ℝ)
        + ((a.m2 : ℝ) * (a.l2 : ℝ) / 2 + (m : ℝ) * (a.l2 : ℝ))) <
      g0 * ((a.m1 : ℝ) * ((a.l1 : ℝ) / 2) + ((a.m2 : ℝ) + (m' : ℝ)) * (a.l1 : ℝ)
        + ((a.m2 : ℝ) * (a.l2 : ℝ) / 2 + (m' : ℝ) * (a.l2 : ℝ))) := by
    apply mul_lt_mul_of_pos_left _ hg
    nlinarith [mul_pos (sub_pos.2 hmmR) hl1R, mul_pos (sub_pos.2 hmmR) hl2R]
  exact ⟨mul_pos hg hpos,
    by rw [abs_of_pos (mul_pos hg hpos), abs_of_pos (mul_pos hg hpos')]; exact hlt⟩

theorem shoulder_torque_mono_witness :
    0 < sampleArm.m1 ∧ 0 < sampleArm.l1 ∧ 0 < sampleArm.m2 ∧ 0 < sampleArm.l2 ∧
    (0 : ℚ) ≤ 0 ∧ (0 : ℚ) < 1 ∧
    set_end_mass sampleArm 0 =
      .ok { sampleArm with end_mass_param := 0, link2Inertia := ⟨1/2, 1/4, 1/32⟩ } ∧
    set_end_mass sampleArm 1 =
      .ok { sampleArm with end_mass_param := 1, link2Inertia := ⟨3/2, 5/12, 9/32⟩ } ∧
    (0 < shoulderTorque (calculate_inverse_dynamics
        { sampleArm with end_mass_param := 0, link2Inertia := ⟨1/2, 1/4, 1/32⟩ }
        [0, 0] [0, 0] [0, 0]) ∧
     |shoulderTorque (calculate_inverse_dynamics
        { sampleArm with end_mass_param := 0, link2Inertia := ⟨1/2, 1/4, 1/32⟩ }
        [0, 0] [0, 0] [0, 0])| <
       |shoulderTorque (calculate_inverse_dynamics
        { sampleArm with end_mass_param := 1, link2Inertia := ⟨3/2, 5/12, 9/32⟩ }
        [0, 0] [0, 0] [0, 0])|) := by
  have hb0 : set_end_mass sampleArm 0 =
      .ok { sampleArm with end_mass_param := 0, link2Inertia := ⟨1/2, 1/4, 1/32⟩ } := by
    norm_num [set_end_mass, sampleArm]
  have hb1 : set_end_mass sampleArm 1 =
      .ok { sampleArm with end_mass_param := 1, link2Inertia := ⟨3/2, 5/12, 9/32⟩ } := by
    norm_num [set_end_mass, sampleArm]
  exact ⟨by norm_num [sampleArm], by norm_num [sampleArm], by norm_num [sampleArm],
    by norm_num [sampleArm], by norm_num, by norm_num, hb0, hb1,
    shoulder_torque_mono sampleArm 0 1 (by norm_num [sampleArm])
      (by norm_num [sampleArm]) (by norm_num [sampleArm]) (by norm_num [sampleArm])
      (by norm_num) (by norm_num) _ _ hb0 hb1⟩

/-- C10: under `m2 > 0`, `l2 > 0`, every `set_end_mass` call with end mass
`m ≥ 0` installs a composite centre-of-mass offset between `l2/2` and `l2`
inclusive; it equals `l2/2` when `m = 0` and approaches `l2` as `m` grows
(for every `ε > 0` there is a bound beyond which the offset is within `ε`
of `l2`), so every update keeps the composite centre of mass on link 2
between its own centroid and the end-effector tip. -/
theorem com2_bounds (a : Arm) (hm2 : 0 < a.m2) (hl2 : 0 < a.l2) :
    (∀ m b, 0 ≤ m → set_end_mass a m = .ok b →
      a.l2 / 2 ≤ b.link2Inertia.comX ∧ b.link2Inertia.comX ≤ a.l2) ∧
    (∀ b, set_end_mass a 0 = .ok b → b.link2Inertia.comX = a.l2 / 2) ∧
    (∀ ε : ℚ, 0 < ε → ∃ M : ℚ, 0 ≤ M ∧ ∀ m b, M ≤ m →
      set_end_mass a m = .ok b → a.l2 - b.link2Inertia.comX < ε) := by
  refine ⟨fun m b hm hok => ?_, fun b hok => ?_, fun ε hε => ?_⟩
  · have hpos : 0 < a.m2 + m := by linarith
    rw [comX_of_ok hok]
    constructor
    · rw [le_div_iff₀ hpos]
      nlinarith [mul_nonneg hm hl2.le]
    · rw [div_le_iff₀ hpos]
      nlinarith [mul_pos hm2 hl2]
  · have hne : a.m2 ≠ 0 := ne_of_gt hm2
    rw [comX_of_ok hok]
    rw [zero_mul, add_zero, add_zero]
    field_simp
    ring
  · refine ⟨a.m2 * a.l2 / (2 * ε), le_of_lt (by positivity), fun m b hM hok => ?_⟩
    have hMpos : 0 < a.m2 * a.l2 / (2 * ε) := by positivity
    have hmpos : 0 < m := lt_of_lt_of_le hMpos hM
    have hpos : 0 < a.m2 + m := by linarith
    rw [comX_of_ok hok]
    have heq : a.l2 - (a.m2 * a.l2 / 2 + m * a.l2) / (a.m2 + m) =
        (a.l2 * (a.m2 + m) - (a.m2 * a.l2 / 2 + m * a.l2)) / (a.m2 + m) := by
      field_simp
      ring
    rw [heq, div_lt_iff₀ hpos]
    have hEM : ε * (a.m2 * a.l2 / (2 * ε)) = a.m2 * a.l2 / 2 := by
      field_simp
      ring
    nlinarith [mul_le_mul_of_nonneg_left hM hε.le, mul_pos hε hm2]

theorem com2_bounds_witness :
    0 < sampleArm.m2 ∧ 0 < sampleArm.l2 ∧ (0 : ℚ) ≤ 5 ∧
    set_end_mass sampleArm 5 =
      .ok { sampleArm with
            end_mass_param := 5
            link2Inertia := ⟨11/2, 21/44, 41/32⟩ } ∧
    (sampleArm.l2 / 2 ≤
        ({ sampleArm with
           end_mass_param := 5
           link2Inertia := ⟨11/2, 21/44, 41/32⟩ } : Arm).link2Inertia.comX ∧
      ({ sampleArm with
         end_mass_param := 5
         link2Inertia := ⟨11/2, 21/44, 41/32⟩ } : Arm).link2Inertia.comX ≤
        sampleArm.l2) := by
  have hset : set_end_mass sampleArm 5 =
      .ok { sampleArm with
            end_mass_param := 5
            link2Inertia := ⟨11/2, 21/44, 41/32⟩ } := by
    norm_num [set_end_mass, sampleArm]
  exact ⟨by norm_num [sampleArm], by norm_num [sampleArm], by norm_num, hset,
    (com2_bounds sampleArm (by norm_num [sampleArm])
        (by norm_num [sampleArm])).1 5 _ (by norm_num) hset⟩

end HumanedExo
